import Mathlib

/-!
Shallow embedding of the multiplayer snake simulation (`script.js`).

The simulation is a tick-driven grid game: a list of snakes (each an ordered
body of cells, head first), one food cell, an optional user-controlled snake,
and a consecutive-blocked counter used for the human game-over rule.

Randomness (`Math.random` draws for food placement, snake placement, extra
colors and initial directions) is modelled by explicit streams of draws passed
as lists; a rejection-sampling loop that exhausts its stream is modelled as
`none` (the JavaScript loop would keep drawing).  JavaScript object identity
(`snake === ignoreTailSnake`) is modelled by the snake's index in the global
snake list.
-/

namespace SnakeGame

/-- A grid cell, or a direction vector: a pair of integer coordinates,
as in the `{x, y}` objects of `script.js`. -/
structure Cell where
  x : Int
  y : Int
deriving DecidableEq, Repr

/-- The `Snake` class: stable id, display color, segment list (head first),
current direction and the user-control flag. -/
structure Snake where
  id : Nat
  color : String
  body : List Cell
  direction : Cell
  userControlled : Bool
deriving DecidableEq, Repr

/-- The four candidate movement directions, in the fixed order used throughout
`script.js`: (1,0), (-1,0), (0,1), (0,-1). -/
def allDirections : List Cell := [⟨1, 0⟩, ⟨-1, 0⟩, ⟨0, 1⟩, ⟨0, -1⟩]

/-- The preset snake color palette of `createSnakes`. -/
def presetColors : List String :=
  ["red", "blue", "green", "orange", "purple", "cyan", "magenta", "brown",
   "pink", "lime", "teal", "navy", "maroon", "olive", "coral", "turquoise", "violet"]

/-- The fixed candidate list for the food color (start-button listener). -/
def foodCandidates : List String :=
  ["yellow", "black", "white", "gray", "silver", "gold", "teal", "navy"]

/-- Inner loop of `isCellOccupied` over one snake's body: does any segment
(minus the last one when `ignoreTail` is set) equal the queried cell? -/
def bodyOccupies (body : List Cell) (x y : Int) (ignoreTail : Bool) : Bool :=
  (if ignoreTail then body.dropLast else body).any fun seg =>
    seg.x == x && seg.y == y

/-- `isCellOccupied(x, y, ignoreTailSnake)`: scans every snake's body; the
snake identical (`===`) to `ignoreTailSnake` — modelled by its index in the
global list — has its last segment (current tail) skipped. -/
def isCellOccupied (snakes : List Snake) (x y : Int) (ignoreTailSnake : Option Nat) : Bool :=
  snakes.enum.any fun p => bodyOccupies p.2.body x y (ignoreTailSnake == some p.1)

/-- Rejection-sampling loop shared by `generateFood` and the snake-placement
loop of `createSnakes`: draw cells until one not occupied by any segment of
`snakes` is found; returns that cell and the unused draws. -/
def sampleUnoccupiedCell (snakes : List Snake) : List Cell → Option (Cell × List Cell)
  | [] => none
  | c :: rest =>
    if snakes.any (fun s => s.body.any fun seg => seg.x == c.x && seg.y == c.y) then
      sampleUnoccupiedCell snakes rest
    else
      some (c, rest)

/-- `generateFood()`: picks a random cell not occupied by any snake segment
(the food keeps the predetermined food color, tracked separately). -/
def generateFood (snakes : List Snake) (draws : List Cell) : Option (Cell × List Cell) :=
  sampleUnoccupiedCell snakes draws

/-- Manhattan distance from the prospective head `head + dir` to the food,
as computed inside the sort comparator of `getNextDirection`. -/
def distToFood (head dir food : Cell) : Nat :=
  (head.x + dir.x - food.x).natAbs + (head.y + dir.y - food.y).natAbs

/-- Candidate directions of `getNextDirection`: all four unit vectors, minus
the exact reverse of the current direction when the body has more than one
block. -/
def possibleDirectionsFor (s : Snake) : List Cell :=
  if s.body.length > 1 then
    allDirections.filter fun dir =>
      !(dir.x == -s.direction.x && dir.y == -s.direction.y)
  else
    allDirections

/-- The safe-direction filter of `getNextDirection`: keep candidates whose
prospective head stays in bounds and lands on a cell that is not occupied
(with the moving snake's own tail ignored). -/
def safeDirections (gw gh : Int) (snakes : List Snake) (i : Nat) (s : Snake) : List Cell :=
  let head := s.body.headD ⟨0, 0⟩
  (possibleDirectionsFor s).filter fun dir =>
    let newX := head.x + dir.x
    let newY := head.y + dir.y
    !(decide (newX < 0) || decide (newX ≥ gw) || decide (newY < 0) || decide (newY ≥ gh)) &&
      !isCellOccupied snakes newX newY (some i)

/-- `getNextDirection(snake)`: sort the safe directions by Manhattan distance
of the prospective head to the food (a stable sort, as guaranteed for
`Array.prototype.sort` since ES2019) and return the first, or `null` if no
safe direction exists.  The snake is given by its index `i` in the global
list. -/
def getNextDirection (gw gh : Int) (snakes : List Snake) (food : Cell) (i : Nat) : Option Cell :=
  (snakes[i]?).bind fun s =>
    let head := s.body.headD ⟨0, 0⟩
    ((safeDirections gw gh snakes i s).mergeSort fun a b =>
      decide (distToFood head a food ≤ distToFood head b food)).head?

/-- Mid-tick state of the `gameLoop` move phase: the (mutated in place)
snake list, the current food cell, the `anyMoved` flag, and the remaining
random draws available for food relocation. -/
structure TickState where
  snakes : List Snake
  food : Cell
  anyMoved : Bool
  foodDraws : List Cell
deriving DecidableEq, Repr

/-- Committing a move inside `gameLoop` (the common block of the user and AI
branches): prepend the prospective head; if it equals the food, keep the tail
and regenerate the food, otherwise pop the tail.  `newDir` is `some d` for an
AI snake (whose stored direction is updated to the chosen one) and `none` for
the user snake (whose stored direction is left as is). -/
def commitMove (st : TickState) (i : Nat) (s : Snake) (newHead : Cell) (newDir : Option Cell) :
    Option TickState :=
  let s0 := match newDir with
    | some d => { s with direction := d }
    | none => s
  if newHead = st.food then
    let snakes' := st.snakes.set i { s0 with body := newHead :: s.body }
    match generateFood snakes' st.foodDraws with
    | none => none
    | some (f, rest) =>
      some { snakes := snakes', food := f, anyMoved := true, foodDraws := rest }
  else
    let snakes' := st.snakes.set i { s0 with body := (newHead :: s.body).dropLast }
    some { st with snakes := snakes', anyMoved := true }

/-- One iteration of the `for (let snake of snakes)` loop in `gameLoop`,
acting on the snake at index `i` of the current (partially updated) list.
A user-controlled snake attempts its stored direction and stays put when the
move is out of bounds or occupied; an AI snake moves iff `getNextDirection`
finds a safe direction. -/
def tickSnake (gw gh : Int) (st : TickState) (i : Nat) : Option TickState :=
  match st.snakes[i]? with
  | none => some st
  | some s =>
    let head := s.body.headD ⟨0, 0⟩
    if s.userControlled then
      let d := s.direction
      let newHead : Cell := ⟨head.x + d.x, head.y + d.y⟩
      if newHead.x < 0 ∨ newHead.x ≥ gw ∨ newHead.y < 0 ∨ newHead.y ≥ gh ∨
          isCellOccupied st.snakes newHead.x newHead.y (some i) = true then
        some st
      else
        commitMove st i s newHead none
    else
      match getNextDirection gw gh st.snakes st.food i with
      | none => some st
      | some d =>
        let newHead : Cell := ⟨head.x + d.x, head.y + d.y⟩
        commitMove st i s newHead (some d)

/-- Runs `tickSnake` over a list of indices, threading the state. -/
def moveSnakes (gw gh : Int) : TickState → List Nat → Option TickState
  | st, [] => some st
  | st, i :: rest =>
    match tickSnake gw gh st i with
    | none => none
    | some st' => moveSnakes gw gh st' rest

/-- The full move phase of `gameLoop`: every snake, in registry order, takes
one `tickSnake` step against the current (partially updated) state. -/
def moveAllSnakes (gw gh : Int) (st : TickState) : Option TickState :=
  moveSnakes gw gh st (List.range st.snakes.length)

/-- Number of consecutive blocked iterations of the user snake before the
game ends (`USER_BLOCKED_THRESHOLD` in `script.js`). -/
def USER_BLOCKED_THRESHOLD : Nat := 3

/-- Resting simulation state between ticks: the snake list, the food cell and
its color, the consecutive-blocked counter, the remembered designated user
snake id (`window.userSnakeId`), and whether the tick timer is running. -/
structure GameState where
  snakes : List Snake
  food : Cell
  foodColor : String
  userBlockedCounter : Nat
  userSnakeId : Option Nat
  running : Bool
deriving DecidableEq, Repr

/-- The safe-move scan of the game-over check in `gameLoop`: all four
directions from the user snake's head, kept when in bounds and not occupied
(tail-excluded for the user snake itself, given by its index `i`). -/
def userSafeMoves (gw gh : Int) (snakes : List Snake) (i : Nat) (u : Snake) : List Cell :=
  let head := u.body.headD ⟨0, 0⟩
  allDirections.filter fun dir =>
    let newX := head.x + dir.x
    let newY := head.y + dir.y
    decide (newX ≥ 0) && decide (newX < gw) && decide (newY ≥ 0) && decide (newY < gh) &&
      !isCellOccupied snakes newX newY (some i)

/-- The game-over section at the end of `gameLoop`.  With the user-control
checkbox checked, the first user-controlled snake (if any) is tested for a
safe move from its current head: none increments the consecutive-blocked
counter (ending the game at the threshold), one resets it.  With the checkbox
unchecked, the game ends iff no snake moved this tick. -/
def gameOverPhase (gw gh : Int) (checked : Bool) (gs : GameState) (st : TickState) : GameState :=
  if checked then
    let idx := st.snakes.findIdx (·.userControlled)
    match st.snakes[idx]? with
    | some userSnake =>
      if (userSafeMoves gw gh st.snakes idx userSnake).length = 0 then
        let c := gs.userBlockedCounter + 1
        if c ≥ USER_BLOCKED_THRESHOLD then
          { snakes := st.snakes, food := st.food, foodColor := gs.foodColor,
            userBlockedCounter := c, userSnakeId := gs.userSnakeId, running := false }
        else
          { snakes := st.snakes, food := st.food, foodColor := gs.foodColor,
            userBlockedCounter := c, userSnakeId := gs.userSnakeId, running := true }
      else
        { snakes := st.snakes, food := st.food, foodColor := gs.foodColor,
          userBlockedCounter := 0, userSnakeId := gs.userSnakeId, running := true }
    | none =>
      { snakes := st.snakes, food := st.food, foodColor := gs.foodColor,
        userBlockedCounter := gs.userBlockedCounter, userSnakeId := gs.userSnakeId,
        running := true }
  else
    if st.anyMoved = false then
      { snakes := st.snakes, food := st.food, foodColor := gs.foodColor,
        userBlockedCounter := gs.userBlockedCounter, userSnakeId := gs.userSnakeId,
        running := false }
    else
      { snakes := st.snakes, food := st.food, foodColor := gs.foodColor,
        userBlockedCounter := gs.userBlockedCounter, userSnakeId := gs.userSnakeId,
        running := true }

/-- One full `gameLoop` tick: the move phase over all snakes followed by
the game-over check.  `checked` is the current state of the user-control
checkbox; `foodDraws` is the stream of random cells available to
`generateFood` during this tick. -/
def gameLoop (gw gh : Int) (checked : Bool) (foodDraws : List Cell) (gs : GameState) :
    Option GameState :=
  (moveAllSnakes gw gh ⟨gs.snakes, gs.food, false, foodDraws⟩).map
    (gameOverPhase gw gh checked gs)

/-- The snake-count read in the start-button listener:
`parseInt(snakeCount.value) || 1`.  A failed parse (`NaN`, modelled as
`none`) or a parsed value of 0 (the only falsy integer) fall back to 1;
every other parsed value — including negative ones — is used as is. -/
def requestedSnakeCount (parsed : Option Int) : Int :=
  match parsed with
  | none => 1
  | some n => if n = 0 then 1 else n

/-- Rejection-sampling loop for an extra snake color beyond the preset
palette: draw until a color not already used by an existing snake comes up. -/
def pickFreshColor (existing : List Snake) : List String → Option (String × List String)
  | [] => none
  | c :: rest =>
    if existing.any fun s => s.color == c then
      pickFreshColor existing rest
    else
      some (c, rest)

/-- The body of the `createSnakes` loop, iterated `n` more times with `i` the
current loop index and `acc` the snakes created so far: pick a color (preset
palette first, then fresh random draws), a starting cell unoccupied by every
previously placed snake, and an initial direction drawn from the four unit
vectors (each `dirDraws` entry models `directions[floor(random()*4)]`);
snake `0` is flagged user-controlled when the checkbox is enabled. -/
def createSnakesAux (enableUserControl : Bool) :
    Nat → Nat → List Snake → List Cell → List String → List Cell → Option (List Snake)
  | 0, _, acc, _, _, _ => some acc
  | n + 1, i, acc, cellDraws, colorDraws, dirDraws =>
    let colorPick : Option (String × List String) :=
      match presetColors[i]? with
      | some c => some (c, colorDraws)
      | none => pickFreshColor acc colorDraws
    match colorPick with
    | none => none
    | some (color, colorDraws') =>
      match sampleUnoccupiedCell acc cellDraws with
      | none => none
      | some (pos, cellDraws') =>
        match dirDraws with
        | [] => none
        | d :: dirDraws' =>
          let s : Snake :=
            { id := i, color := color, body := [pos], direction := d,
              userControlled := i = 0 && enableUserControl }
          createSnakesAux enableUserControl n (i + 1) (acc ++ [s])
            cellDraws' colorDraws' dirDraws'

/-- `createSnakes(count)`: the loop runs `max count 0` times (a negative
`count` runs it zero times). -/
def createSnakes (count : Int) (enableUserControl : Bool)
    (cellDraws : List Cell) (colorDraws : List String) (dirDraws : List Cell) :
    Option (List Snake) :=
  createSnakesAux enableUserControl count.toNat 0 [] cellDraws colorDraws dirDraws

/-- Food-color choice in the start-button listener: the first candidate not
used by a snake, falling back to yellow. -/
def chooseFoodColor (snakes : List Snake) : String :=
  match foodCandidates.find? (fun c => !snakes.any fun s => s.color == c) with
  | some c => c
  | none => "yellow"

/-- The start-button listener: read the count, create the snakes, choose a
food color and place the food, reset the blocked counter, and start the tick
timer.  `prevUserSnakeId` is the previous value of `window.userSnakeId`,
which is only overwritten when snake 0 is created user-controlled. -/
def startGame (prevUserSnakeId : Option Nat) (parsed : Option Int) (checked : Bool)
    (cellDraws : List Cell) (colorDraws : List String) (dirDraws : List Cell)
    (foodDraws : List Cell) : Option GameState :=
  let count := requestedSnakeCount parsed
  match createSnakes count checked cellDraws colorDraws dirDraws with
  | none => none
  | some snakes =>
    match generateFood snakes foodDraws with
    | none => none
    | some (f, _) =>
      some { snakes := snakes, food := f, foodColor := chooseFoodColor snakes,
             userBlockedCounter := 0,
             userSnakeId := if checked ∧ 0 < count then some 0 else prevUserSnakeId,
             running := true }

/-- The keydown listener: find the (first) user-controlled snake and set its
direction to the decoded key direction, unless the snake has more than one
block and the new direction is the exact reverse of the current one (in which
case the event is ignored).  The key switch only ever produces the four unit
vectors. -/
def applyKeydown (snakes : List Snake) (newDir : Cell) : List Snake :=
  let idx := snakes.findIdx (·.userControlled)
  match snakes[idx]? with
  | none => snakes
  | some u =>
    if u.body.length > 1 ∧ u.direction.x = -newDir.x ∧ u.direction.y = -newDir.y then
      snakes
    else
      snakes.set idx { u with direction := newDir }

/-- The user-control checkbox change listener: enabling re-flags the snake
whose id is the remembered `window.userSnakeId` (or, failing that, the first
snake, remembering its id); disabling un-flags the remembered snake. -/
def toggleUserControl (snakes : List Snake) (userSnakeId : Option Nat) (enable : Bool) :
    List Snake × Option Nat :=
  if enable then
    let idx := snakes.findIdx fun s => userSnakeId == some s.id
    match snakes[idx]? with
    | some designated =>
      (snakes.set idx { designated with userControlled := true }, userSnakeId)
    | none =>
      match snakes with
      | [] => (snakes, userSnakeId)
      | s0 :: rest => ({ s0 with userControlled := true } :: rest, some s0.id)
  else
    let idx := snakes.findIdx fun s => userSnakeId == some s.id
    match snakes[idx]? with
    | some designated =>
      (snakes.set idx { designated with userControlled := false }, userSnakeId)
    | none => (snakes, userSnakeId)

/-- The states the simulation can be in at rest: freshly started, after a
tick of the running game, or after one of the asynchronous input events
(a keydown with one of the four unit vectors, or a checkbox toggle). -/
inductive Reachable (gw gh : Int) : GameState → Prop where
  | start (prevUserSnakeId : Option Nat) (parsed : Option Int) (checked : Bool)
      (cellDraws : List Cell) (colorDraws : List String) (dirDraws : List Cell)
      (foodDraws : List Cell) (gs : GameState) :
      startGame prevUserSnakeId parsed checked cellDraws colorDraws dirDraws foodDraws =
        some gs →
      Reachable gw gh gs
  | tick (gs : GameState) (checked : Bool) (foodDraws : List Cell) (gs' : GameState) :
      Reachable gw gh gs → gs.running = true →
      gameLoop gw gh checked foodDraws gs = some gs' →
      Reachable gw gh gs'
  | key (gs : GameState) (newDir : Cell) :
      Reachable gw gh gs → newDir ∈ allDirections →
      Reachable gw gh { gs with snakes := applyKeydown gs.snakes newDir }
  | toggle (gs : GameState) (enable : Bool) :
      Reachable gw gh gs →
      Reachable gw gh
        { gs with snakes := (toggleUserControl gs.snakes gs.userSnakeId enable).1,
                  userSnakeId := (toggleUserControl gs.snakes gs.userSnakeId enable).2 }

/-- All body segments of all snakes, in registry order. -/
def allSegments (snakes : List Snake) : List Cell := snakes.flatMap (·.body)

/-- The board invariant on a snake list and food cell: every body is
non-empty, no cell is occupied by two segments (within or across snakes),
and the food does not sit on any segment. -/
def BoardInv (snakes : List Snake) (food : Cell) : Prop :=
  (allSegments snakes).Nodup ∧ (∀ s ∈ snakes, s.body ≠ []) ∧ food ∉ allSegments snakes

/-- The board invariant on a mid-tick state. -/
def TickInv (st : TickState) : Prop := BoardInv st.snakes st.food

/-- The board invariant on a resting simulation state. -/
def Inv (gs : GameState) : Prop := BoardInv gs.snakes gs.food

/-! ### Concrete example states used to evaluate the definitions -/

/-- A freshly started one-snake game (count 1, user control off). -/
def demoStart : GameState :=
  { snakes := [{ id := 0, color := "red", body := [⟨0, 0⟩], direction := ⟨1, 0⟩,
                 userControlled := false }],
    food := ⟨2, 2⟩, foodColor := "yellow", userBlockedCounter := 0,
    userSnakeId := none, running := true }

/-- An AI snake about to step right onto the cell the user snake also wants. -/
def c2snakeA : Snake :=
  { id := 0, color := "red", body := [⟨0, 0⟩], direction := ⟨1, 0⟩, userControlled := false }

/-- A user snake one cell above the contested cell, heading up. -/
def c2snakeB : Snake :=
  { id := 1, color := "blue", body := [⟨1, 1⟩], direction := ⟨0, -1⟩, userControlled := true }

/-- Resting state on a 3×2 grid where both snakes covet the cell (1, 0). -/
def c2start : TickState :=
  { snakes := [c2snakeA, c2snakeB], food := ⟨2, 0⟩, anyMoved := false, foodDraws := [] }

/-- The mid-tick state after the AI snake committed its move to (1, 0). -/
def c2mid : TickState :=
  { snakes := [{ id := 0, color := "red", body := [⟨1, 0⟩], direction := ⟨1, 0⟩,
                 userControlled := false }, c2snakeB],
    food := ⟨2, 0⟩, anyMoved := true, foodDraws := [] }

/-- Two user-driven snakes used to exercise the interleaving of one tick. -/
def c2wsnake0 : Snake :=
  { id := 0, color := "red", body := [⟨0, 0⟩], direction := ⟨1, 0⟩, userControlled := true }

def c2wsnake1 : Snake :=
  { id := 1, color := "blue", body := [⟨3, 3⟩], direction := ⟨0, 1⟩, userControlled := true }

def c2wpre : TickState :=
  { snakes := [c2wsnake0, c2wsnake1], food := ⟨4, 4⟩, anyMoved := false, foodDraws := [] }

/-- State of `c2wpre` after only its first snake has moved. -/
def c2wmid : TickState :=
  { snakes := [{ id := 0, color := "red", body := [⟨1, 0⟩], direction := ⟨1, 0⟩,
                 userControlled := true }, c2wsnake1],
    food := ⟨4, 4⟩, anyMoved := true, foodDraws := [] }

/-- A single snake whose head is one step left of the food. -/
def c3snake : Snake :=
  { id := 0, color := "red", body := [⟨0, 0⟩], direction := ⟨1, 0⟩, userControlled := false }

def c3pre : TickState :=
  { snakes := [c3snake], food := ⟨1, 0⟩, anyMoved := false, foodDraws := [⟨3, 3⟩] }

/-- Result of committing `c3snake`'s move onto the food cell. -/
def c3post : TickState :=
  { snakes := [{ id := 0, color := "red", body := [⟨1, 0⟩, ⟨0, 0⟩], direction := ⟨1, 0⟩,
                 userControlled := false }],
    food := ⟨3, 3⟩, anyMoved := true, foodDraws := [] }

/-- A lone AI snake at the origin of a 2×2 board with food at (1, 1). -/
def c4snake : Snake :=
  { id := 0, color := "red", body := [⟨0, 0⟩], direction := ⟨1, 0⟩, userControlled := false }

def c4snakes : List Snake := [c4snake]

/-- A user snake on a 1×1 board: every move is out of bounds. -/
def c5snake : Snake :=
  { id := 0, color := "red", body := [⟨0, 0⟩], direction := ⟨1, 0⟩, userControlled := true }

def c5gs : GameState :=
  { snakes := [c5snake], food := ⟨5, 5⟩, foodColor := "yellow", userBlockedCounter := 0,
    userSnakeId := some 0, running := true }

/-- The blocked tick leaves the counter at 1 and the game running. -/
def c5gsAfter : GameState :=
  { snakes := [c5snake], food := ⟨5, 5⟩, foodColor := "yellow", userBlockedCounter := 1,
    userSnakeId := some 0, running := true }

/-- An AI snake trapped on a 1×1 board. -/
def c6snake : Snake :=
  { id := 0, color := "red", body := [⟨0, 0⟩], direction := ⟨1, 0⟩, userControlled := false }

def c6gs : GameState :=
  { snakes := [c6snake], food := ⟨5, 5⟩, foodColor := "yellow", userBlockedCounter := 0,
    userSnakeId := none, running := true }

/-- The trapped tick ends the game immediately. -/
def c6gsAfter : GameState :=
  { snakes := [c6snake], food := ⟨5, 5⟩, foodColor := "yellow", userBlockedCounter := 0,
    userSnakeId := none, running := false }

/-- A two-segment user snake moving right; a left key press is its reverse. -/
def c7snake : Snake :=
  { id := 0, color := "red", body := [⟨0, 0⟩, ⟨1, 0⟩], direction := ⟨1, 0⟩,
    userControlled := true }

def c7snakes : List Snake := [c7snake]

/-- A user snake on a 2×1 board facing the wall: it cannot move this tick,
but the cell to its right keeps a legal move available. -/
def c9snake : Snake :=
  { id := 0, color := "red", body := [⟨0, 0⟩], direction := ⟨-1, 0⟩, userControlled := true }

def c9gs : GameState :=
  { snakes := [c9snake], food := ⟨1, 0⟩, foodColor := "yellow", userBlockedCounter := 2,
    userSnakeId := some 0, running := true }

/-- The tick where nothing moved: the game keeps running and the counter resets. -/
def c9gsAfter : GameState :=
  { snakes := [c9snake], food := ⟨1, 0⟩, foodColor := "yellow", userBlockedCounter := 0,
    userSnakeId := some 0, running := true }

/-! ### Basic lemmas about the helper functions -/

theorem cell_eq_iff {c d : Cell} : c = d ↔ c.x = d.x ∧ c.y = d.y := by
  cases c; cases d; simp

theorem allSegments_append (A B : List Snake) :
    allSegments (A ++ B) = allSegments A ++ allSegments B :=
  List.flatMap_append A B _

theorem allSegments_cons (s : Snake) (l : List Snake) :
    allSegments (s :: l) = s.body ++ allSegments l :=
  List.flatMap_cons s l _

theorem sampleUnoccupiedCell_not_mem {snakes : List Snake} :
    ∀ {draws : List Cell} {c : Cell} {rest : List Cell},
    sampleUnoccupiedCell snakes draws = some (c, rest) → c ∉ allSegments snakes := by
  intro draws
  induction draws with
  | nil => intro c rest h; simp [sampleUnoccupiedCell] at h
  | cons d ds ih =>
    intro c rest h
    rw [sampleUnoccupiedCell] at h
    by_cases hd :
        (snakes.any fun s => s.body.any fun seg => seg.x == d.x && seg.y == d.y) = true
    · rw [if_pos hd] at h
      exact ih h
    · rw [if_neg hd] at h
      simp only [Option.some.injEq, Prod.mk.injEq] at h
      obtain ⟨rfl, rfl⟩ := h
      intro hmem
      apply hd
      rcases List.mem_flatMap.mp hmem with ⟨s, hs, hseg⟩
      exact List.any_eq_true.mpr ⟨s, hs, List.any_eq_true.mpr ⟨d, hseg, by simp⟩⟩

theorem isCellOccupied_eq_false_iff {snakes : List Snake} {x y : Int} {ign : Option Nat} :
    isCellOccupied snakes x y ign = false ↔
      ∀ j s, snakes[j]? = some s →
        bodyOccupies s.body x y (ign == some j) = false := by
  rw [isCellOccupied, List.any_eq_false]
  constructor
  · intro h j s hj
    have hmem : ((j, s) : Nat × Snake) ∈ snakes.enum := List.mem_enum_iff_getElem?.mpr hj
    simpa using h _ hmem
  · intro h p hp
    have := List.mem_enum_iff_getElem?.mp hp
    simpa using h p.1 p.2 this

theorem bodyOccupies_false_forall {b : List Cell} {x y : Int} {ig : Bool}
    (h : bodyOccupies b x y ig = false) :
    ∀ c ∈ (if ig then b.dropLast else b), ¬(c.x = x ∧ c.y = y) := by
  rw [bodyOccupies, List.any_eq_false] at h
  intro c hc
  simpa using h c hc

/-- Unpacking a failed occupancy query with tail exclusion at index
`A.length` of the decomposed snake list `A ++ s :: C`: no segment of the
other snakes, and no non-tail segment of `s`, sits at `(x, y)`. -/
theorem isCellOccupied_false_parts {A C : List Snake} {s : Snake} {x y : Int}
    (h : isCellOccupied (A ++ s :: C) x y (some A.length) = false) :
    (∀ c ∈ allSegments A, c ≠ (⟨x, y⟩ : Cell)) ∧
    (∀ c ∈ s.body.dropLast, c ≠ (⟨x, y⟩ : Cell)) ∧
    (∀ c ∈ allSegments C, c ≠ (⟨x, y⟩ : Cell)) := by
  have hall := isCellOccupied_eq_false_iff.mp h
  refine ⟨?_, ?_, ?_⟩
  · intro c hc
    rcases List.mem_flatMap.mp hc with ⟨t, ht, hseg⟩
    rcases List.mem_iff_getElem?.mp ht with ⟨j, hj⟩
    have hjlt : j < A.length := (List.getElem?_eq_some.mp hj).1
    have hj' : (A ++ s :: C)[j]? = some t := by
      rw [List.getElem?_append, if_pos hjlt]; exact hj
    have hb := hall j t hj'
    have hne : (some A.length == some j) = false := by
      simp [Nat.ne_of_gt hjlt]
    rw [hne] at hb
    have := bodyOccupies_false_forall hb
    simp only [if_neg (by simp : ¬False = true)] at this
    intro hceq
    exact this c hseg (by rw [hceq]; exact ⟨rfl, rfl⟩)
  · intro c hc
    have hj' : (A ++ s :: C)[A.length]? = some s := by
      rw [List.getElem?_append_right (Nat.le_refl _)]
      simp
    have hb := hall A.length s hj'
    have heq : (some A.length == some A.length) = true := by simp
    rw [heq] at hb
    have := bodyOccupies_false_forall hb
    simp only [if_pos rfl] at this
    intro hceq
    exact this c hc (by rw [hceq]; exact ⟨rfl, rfl⟩)
  · intro c hc
    rcases List.mem_flatMap.mp hc with ⟨t, ht, hseg⟩
    rcases List.mem_iff_getElem?.mp ht with ⟨k, hk⟩
    have hj' : (A ++ s :: C)[A.length + 1 + k]? = some t := by
      rw [List.getElem?_append_right (by omega)]
      have : A.length + 1 + k - A.length = k + 1 := by omega
      rw [this]
      simpa using hk
    have hb := hall (A.length + 1 + k) t hj'
    have hne : (some A.length == some (A.length + 1 + k)) = false := by
      simp; omega
    rw [hne] at hb
    have := bodyOccupies_false_forall hb
    simp only [if_neg (by simp : ¬False = true)] at this
    intro hceq
    exact this c hseg (by rw [hceq]; exact ⟨rfl, rfl⟩)

/-- Replacing the middle snake's body by a fresh head consed onto a sublist
of the old body keeps the flattened segment list duplicate-free. -/
theorem nodup_replace_middle {SA SC b tl : List Cell} {newHead : Cell}
    (hsub : tl.Sublist b)
    (hA : newHead ∉ SA) (ht : newHead ∉ tl) (hC : newHead ∉ SC)
    (h : (SA ++ (b ++ SC)).Nodup) : (SA ++ ((newHead :: tl) ++ SC)).Nodup := by
  rw [List.nodup_append] at h ⊢
  obtain ⟨hSA, hrest, hdisj⟩ := h
  rw [List.nodup_append] at hrest
  obtain ⟨hb, hSC, hdisj2⟩ := hrest
  refine ⟨hSA, ?_, ?_⟩
  · rw [List.nodup_append]
    refine ⟨List.nodup_cons.mpr ⟨ht, hsub.nodup hb⟩, hSC, ?_⟩
    intro a ha hc
    rcases List.mem_cons.mp ha with rfl | ha'
    · exact hC hc
    · exact hdisj2 (hsub.subset ha') hc
  · intro a ha hc
    rcases List.mem_append.mp hc with hc1 | hc2
    · rcases List.mem_cons.mp hc1 with rfl | hc1'
      · exact hA ha
      · exact hdisj ha (List.mem_append.mpr (Or.inl (hsub.subset hc1')))
    · exact hdisj ha (List.mem_append.mpr (Or.inr hc2))

/-! ### Preservation of the board invariant by one committed move -/

theorem commitMove_inv {st st' : TickState} {i : Nat} {s : Snake}
    {newHead : Cell} {nd : Option Cell}
    (hs : st.snakes[i]? = some s)
    (hocc : isCellOccupied st.snakes newHead.x newHead.y (some i) = false)
    (hinv : TickInv st)
    (h : commitMove st i s newHead nd = some st') : TickInv st' := by
  obtain ⟨hnodup, hne, hfoodmem⟩ := hinv
  obtain ⟨hlt, hget⟩ := List.getElem?_eq_some.mp hs
  have hbne : s.body ≠ [] := hne s (by
    have := List.getElem?_eq_some.mpr ⟨hlt, hget⟩
    exact List.mem_iff_getElem?.mpr ⟨i, this⟩)
  simp only [commitMove] at h
  split at h
  case isTrue hfood =>
    -- growth branch: the head lands on the food cell
    obtain ⟨l₁, l₂, hdecomp, hlen, hset⟩ :=
      @List.exists_of_set _ i
        { (match nd with | some d => { s with direction := d } | none => s) with
          body := newHead :: s.body } st.snakes hlt
    rw [hget] at hdecomp
    have hsegOld : allSegments st.snakes = allSegments l₁ ++ (s.body ++ allSegments l₂) := by
      rw [hdecomp, allSegments_append, allSegments_cons]
    split at h
    case h_1 => exact absurd h (by simp)
    case h_2 f rest heq =>
      simp only [Option.some.injEq] at h
      subst h
      have hsegNew :
          allSegments (st.snakes.set i
            { (match nd with | some d => { s with direction := d } | none => s) with
              body := newHead :: s.body }) =
          allSegments l₁ ++ ((newHead :: s.body) ++ allSegments l₂) := by
        rw [hset, allSegments_append, allSegments_cons]
      refine ⟨?_, ?_, ?_⟩
      · show (allSegments (st.snakes.set i _)).Nodup
        rw [hsegNew]
        rw [hsegOld] at hnodup hfoodmem
        simp only [List.mem_append, not_or] at hfoodmem
        subst hfood
        exact nodup_replace_middle (List.Sublist.refl _)
          hfoodmem.1 hfoodmem.2.1 hfoodmem.2.2 hnodup
      · intro u hu
        rcases List.mem_or_eq_of_mem_set hu with h1 | rfl
        · exact hne u h1
        · simp
      · exact sampleUnoccupiedCell_not_mem heq
  case isFalse hfood =>
    -- normal branch: prepend the head and pop the tail
    obtain ⟨l₁, l₂, hdecomp, hlen, hset⟩ :=
      @List.exists_of_set _ i
        { (match nd with | some d => { s with direction := d } | none => s) with
          body := (newHead :: s.body).dropLast } st.snakes hlt
    rw [hget] at hdecomp
    have hsegOld : allSegments st.snakes = allSegments l₁ ++ (s.body ++ allSegments l₂) := by
      rw [hdecomp, allSegments_append, allSegments_cons]
    simp only [Option.some.injEq] at h
    subst h
    obtain ⟨c0, cs, hb⟩ := List.exists_cons_of_ne_nil hbne
    have hdrop : (newHead :: s.body).dropLast = newHead :: s.body.dropLast := by
      rw [hb]; rfl
    have hparts := by
      rw [hdecomp, ← hlen] at hocc
      exact isCellOccupied_false_parts hocc
    have hsegNew :
        allSegments (st.snakes.set i
          { (match nd with | some d => { s with direction := d } | none => s) with
            body := (newHead :: s.body).dropLast }) =
        allSegments l₁ ++ ((newHead :: s.body.dropLast) ++ allSegments l₂) := by
      rw [hset, allSegments_append, allSegments_cons, hdrop]
    refine ⟨?_, ?_, ?_⟩
    · show (allSegments (st.snakes.set i _)).Nodup
      rw [hsegNew]
      rw [hsegOld] at hnodup
      refine nodup_replace_middle (List.dropLast_sublist _) ?_ ?_ ?_ hnodup
      · intro hmem; exact hparts.1 newHead hmem rfl
      · intro hmem; exact hparts.2.1 newHead hmem rfl
      · intro hmem; exact hparts.2.2 newHead hmem rfl
    · intro u hu
      rcases List.mem_or_eq_of_mem_set hu with h1 | rfl
      · exact hne u h1
      · simp [hdrop]
    · show st.food ∉ allSegments (st.snakes.set i _)
      rw [hsegNew]
      rw [hsegOld] at hfoodmem
      simp only [List.mem_append, not_or] at hfoodmem
      simp only [List.mem_append, List.mem_cons, not_or]
      refine ⟨hfoodmem.1, ⟨?_, ?_⟩, hfoodmem.2.2⟩
      · intro hc; exact hfood hc.symm
      · intro hc; exact hfoodmem.2.1 ((List.dropLast_sublist s.body).subset hc)

/-! ### Properties of the planner's safe-direction list -/

theorem safeDirections_spec {gw gh : Int} {snakes : List Snake} {i : Nat} {s : Snake} {d : Cell}
    (h : d ∈ safeDirections gw gh snakes i s) :
    d ∈ possibleDirectionsFor s ∧
    0 ≤ (s.body.headD ⟨0, 0⟩).x + d.x ∧ (s.body.headD ⟨0, 0⟩).x + d.x < gw ∧
    0 ≤ (s.body.headD ⟨0, 0⟩).y + d.y ∧ (s.body.headD ⟨0, 0⟩).y + d.y < gh ∧
    isCellOccupied snakes ((s.body.headD ⟨0, 0⟩).x + d.x) ((s.body.headD ⟨0, 0⟩).y + d.y)
      (some i) = false := by
  simp only [safeDirections, List.mem_filter, Bool.and_eq_true, Bool.not_eq_true',
    Bool.or_eq_false_iff, decide_eq_false_iff_not, not_lt, ge_iff_le, not_le] at h
  tauto

theorem getNextDirection_mem_safe {gw gh : Int} {snakes : List Snake} {food : Cell}
    {i : Nat} {s : Snake} {d : Cell}
    (hs : snakes[i]? = some s)
    (h : getNextDirection gw gh snakes food i = some d) :
    d ∈ safeDirections gw gh snakes i s := by
  rw [getNextDirection, hs] at h
  simp only [Option.bind_some] at h
  exact List.mem_mergeSort.mp (List.mem_of_mem_head? h)

/-! ### Preservation of the board invariant across a tick -/

theorem tickSnake_inv {gw gh : Int} {st st' : TickState} {i : Nat}
    (hinv : TickInv st) (h : tickSnake gw gh st i = some st') : TickInv st' := by
  cases hs : st.snakes[i]? with
  | none =>
    simp only [tickSnake, hs, Option.some.injEq] at h
    exact h ▸ hinv
  | some s =>
    simp only [tickSnake, hs] at h
    by_cases hu : s.userControlled = true
    · rw [if_pos hu] at h
      split at h
      · simp only [Option.some.injEq] at h; exact h ▸ hinv
      · next hcond =>
          push_neg at hcond
          obtain ⟨-, -, -, -, hocc⟩ := hcond
          exact commitMove_inv hs (Bool.not_eq_true _ ▸ hocc) hinv h
    · rw [if_neg hu] at h
      cases hnd : getNextDirection gw gh st.snakes st.food i with
      | none => rw [hnd] at h; simp only [Option.some.injEq] at h; exact h ▸ hinv
      | some d =>
        rw [hnd] at h
        have hsafe := safeDirections_spec (getNextDirection_mem_safe hs hnd)
        exact commitMove_inv hs hsafe.2.2.2.2.2 hinv h

theorem moveSnakes_inv {gw gh : Int} :
    ∀ {idxs : List Nat} {st st' : TickState},
    TickInv st → moveSnakes gw gh st idxs = some st' → TickInv st' := by
  intro idxs
  induction idxs with
  | nil => intro st st' hinv h; rw [moveSnakes] at h; simp only [Option.some.injEq] at h
           exact h ▸ hinv
  | cons i rest ih =>
    intro st st' hinv h
    rw [moveSnakes] at h
    cases hstep : tickSnake gw gh st i with
    | none => rw [hstep] at h; exact absurd h (by simp)
    | some st₁ => rw [hstep] at h; exact ih (tickSnake_inv hinv hstep) h

theorem moveAllSnakes_inv {gw gh : Int} {st st' : TickState}
    (hinv : TickInv st) (h : moveAllSnakes gw gh st = some st') : TickInv st' :=
  moveSnakes_inv hinv h

theorem gameOverPhase_snakes (gw gh : Int) (checked : Bool) (gs : GameState) (st : TickState) :
    (gameOverPhase gw gh checked gs st).snakes = st.snakes := by
  simp only [gameOverPhase]
  split
  · split
    · split
      · split <;> rfl
      · rfl
    · rfl
  · split <;> rfl

theorem gameOverPhase_food (gw gh : Int) (checked : Bool) (gs : GameState) (st : TickState) :
    (gameOverPhase gw gh checked gs st).food = st.food := by
  simp only [gameOverPhase]
  split
  · split
    · split
      · split <;> rfl
      · rfl
    · rfl
  · split <;> rfl

theorem gameLoop_inv {gw gh : Int} {checked : Bool} {foodDraws : List Cell}
    {gs gs' : GameState} (hinv : Inv gs) (h : gameLoop gw gh checked foodDraws gs = some gs') :
    Inv gs' := by
  rw [gameLoop] at h
  cases hmv : moveAllSnakes gw gh ⟨gs.snakes, gs.food, false, foodDraws⟩ with
  | none => rw [hmv] at h; exact absurd h (by simp)
  | some st =>
    rw [hmv] at h
    simp only [Option.map_some', Option.some.injEq] at h
    have hst : TickInv st := moveAllSnakes_inv (by exact hinv) hmv
    subst h
    unfold Inv
    rw [gameOverPhase_snakes, gameOverPhase_food]
    exact hst

/-! ### Invariant at the start of a run, and under the input listeners -/

theorem createSnakesAux_inv {enable : Bool} :
    ∀ {n i : Nat} {acc : List Snake} {cellDraws : List Cell} {colorDraws : List String}
      {dirDraws : List Cell} {l : List Snake},
    createSnakesAux enable n i acc cellDraws colorDraws dirDraws = some l →
    (allSegments acc).Nodup → (∀ s ∈ acc, s.body ≠ []) →
    (allSegments l).Nodup ∧ (∀ s ∈ l, s.body ≠ []) := by
  intro n
  induction n with
  | zero =>
    intro i acc cellDraws colorDraws dirDraws l h h1 h2
    simp only [createSnakesAux, Option.some.injEq] at h
    exact h ▸ ⟨h1, h2⟩
  | succ m ih =>
    intro i acc cellDraws colorDraws dirDraws l h h1 h2
    rw [createSnakesAux] at h
    split at h
    · exact absurd h (by simp)
    · next color colorDraws' heqc =>
      split at h
      · exact absurd h (by simp)
      · next pos cellDraws' heqp =>
        split at h
        · exact absurd h (by simp)
        · next d dirDraws' heqd =>
          have hpos : pos ∉ allSegments acc := sampleUnoccupiedCell_not_mem heqp
          refine ih h ?_ ?_
          · rw [allSegments_append]
            rw [List.nodup_append]
            refine ⟨h1, by simp [allSegments, List.flatMap_cons], ?_⟩
            intro a ha hc
            simp only [allSegments, List.flatMap_cons, List.flatMap_nil] at hc
            simp only [List.append_nil, List.mem_singleton] at hc
            exact hpos (hc ▸ ha)
          · intro s hs
            rcases List.mem_append.mp hs with h' | h'
            · exact h2 s h'
            · simp only [List.mem_singleton] at h'
              subst h'
              simp

theorem startGame_inv {prevId parsed : Option _} {checked : Bool}
    {cellDraws : List Cell} {colorDraws : List String} {dirDraws : List Cell}
    {foodDraws : List Cell} {gs : GameState}
    (h : startGame prevId parsed checked cellDraws colorDraws dirDraws foodDraws = some gs) :
    Inv gs := by
  rw [startGame] at h
  split at h
  · exact absurd h (by simp)
  · next snakes heqs =>
    split at h
    · exact absurd h (by simp)
    · next f rest heqf =>
      simp only [Option.some.injEq] at h
      subst h
      have hbase := createSnakesAux_inv heqs (by simp [allSegments]) (by simp)
      exact ⟨hbase.1, hbase.2, sampleUnoccupiedCell_not_mem heqf⟩

theorem boardInv_set_same_body {l : List Snake} {f : Cell} {i : Nat} {u u' : Snake}
    (h : l[i]? = some u) (hb : u'.body = u.body) (hinv : BoardInv l f) :
    BoardInv (l.set i u') f := by
  obtain ⟨hlt, hget⟩ := List.getElem?_eq_some.mp h
  obtain ⟨l₁, l₂, hdecomp, hlen, hset⟩ := @List.exists_of_set _ i u' l hlt
  rw [hget] at hdecomp
  have hseg : allSegments (l.set i u') = allSegments l := by
    rw [hset, hdecomp, allSegments_append, allSegments_append, allSegments_cons,
      allSegments_cons, hb]
  obtain ⟨h1, h2, h3⟩ := hinv
  refine ⟨hseg ▸ h1, ?_, hseg ▸ h3⟩
  intro s hs
  rcases List.mem_or_eq_of_mem_set hs with h' | rfl
  · exact h2 s h'
  · rw [hb]
    exact h2 u (by rw [hdecomp]; exact List.mem_append.mpr (Or.inr (List.mem_cons_self _ _)))

theorem applyKeydown_inv {snakes : List Snake} {f : Cell} {newDir : Cell}
    (hinv : BoardInv snakes f) : BoardInv (applyKeydown snakes newDir) f := by
  rw [applyKeydown]
  cases hu : snakes[snakes.findIdx (·.userControlled)]? with
  | none => exact hinv
  | some u =>
    dsimp only
    by_cases hc : u.body.length > 1 ∧ u.direction.x = -newDir.x ∧ u.direction.y = -newDir.y
    · rw [if_pos hc]; exact hinv
    · rw [if_neg hc]; exact boardInv_set_same_body hu rfl hinv

theorem toggleUserControl_inv {snakes : List Snake} {f : Cell} {userSnakeId : Option Nat}
    {enable : Bool} (hinv : BoardInv snakes f) :
    BoardInv (toggleUserControl snakes userSnakeId enable).1 f := by
  simp only [toggleUserControl]
  by_cases he : enable = true
  · rw [if_pos he]
    cases hu : snakes[snakes.findIdx fun s => userSnakeId == some s.id]? with
    | some designated => exact boardInv_set_same_body hu rfl hinv
    | none =>
      cases snakes with
      | nil => exact hinv
      | cons s0 rest =>
        obtain ⟨h1, h2, h3⟩ := hinv
        rw [allSegments_cons] at h1 h3
        refine ⟨?_, ?_, ?_⟩
        · rw [allSegments_cons]; exact h1
        · intro s hs
          rcases List.mem_cons.mp hs with rfl | h'
          · exact h2 s0 (List.mem_cons_self _ _)
          · exact h2 s (List.mem_cons.mpr (Or.inr h'))
        · rw [allSegments_cons]; exact h3
  · rw [if_neg he]
    cases hu : snakes[snakes.findIdx fun s => userSnakeId == some s.id]? with
    | some designated => exact boardInv_set_same_body hu rfl hinv
    | none => exact hinv

/-- Every reachable resting state satisfies the board invariant. -/
theorem reachable_inv {gw gh : Int} {gs : GameState} (h : Reachable gw gh gs) : Inv gs := by
  induction h with
  | start prevId parsed checked cellDraws colorDraws dirDraws foodDraws gs hstart =>
    exact startGame_inv hstart
  | tick gs checked foodDraws gs' _ hrun hloop ih => exact gameLoop_inv ih hloop
  | key gs newDir _ hmem ih => exact applyKeydown_inv ih
  | toggle gs enable _ ih => exact toggleUserControl_inv ih

/-! ### The stable sort picks the first minimizer -/

theorem head_mergeSort_eq_find_min {α : Type} [DecidableEq α] (key : α → Nat) {xs : List α}
    (hnd : xs.Nodup) :
    (xs.mergeSort fun a b => decide (key a ≤ key b)).head? =
      xs.find? fun d => decide (∀ x ∈ xs, key d ≤ key x) := by
  cases hxs : xs with
  | nil => simp
  | cons x0 xs0 =>
  rw [← hxs]
  have hne : xs ≠ [] := by rw [hxs]; simp
  set le : α → α → Bool := fun a b => decide (key a ≤ key b) with hle
  have htrans : ∀ a b c, le a b = true → le b c = true → le a c = true := by
    intro a b c hab hbc
    simp only [hle, decide_eq_true_eq] at hab hbc ⊢
    omega
  have htotal : ∀ a b, (le a b || le b a) = true := by
    intro a b
    simp only [hle, Bool.or_eq_true, decide_eq_true_eq]
    omega
  have hms_ne : xs.mergeSort le ≠ [] := by
    intro hempty
    have hperm := List.mergeSort_perm xs le
    rw [hempty] at hperm
    exact hne hperm.symm.eq_nil
  obtain ⟨h0, tail, hms⟩ := List.exists_cons_of_ne_nil hms_ne
  have hsorted := List.sorted_mergeSort htrans htotal xs
  rw [hms] at hsorted
  have hh0mem : h0 ∈ xs := by
    have hmem : h0 ∈ xs.mergeSort le := by
      rw [hms]
      exact List.mem_cons_self _ _
    exact List.mem_mergeSort.mp hmem
  have hmin : ∀ x ∈ xs, key h0 ≤ key x := by
    intro x hx
    have hx' : x ∈ xs.mergeSort le := List.mem_mergeSort.mpr hx
    rw [hms] at hx'
    rcases List.mem_cons.mp hx' with rfl | hx''
    · exact Nat.le_refl _
    · have := (List.pairwise_cons.mp hsorted).1 x hx''
      simpa [hle] using this
  cases hfind : xs.find? (fun d => decide (∀ x ∈ xs, key d ≤ key x)) with
  | none =>
    exfalso
    have := List.find?_eq_none.mp hfind h0 hh0mem
    simp only [decide_eq_true_eq] at this
    exact this hmin
  | some m =>
    obtain ⟨hpredm, as, bs, hsplit, hfail⟩ := List.find?_eq_some.mp hfind
    simp only [decide_eq_true_eq] at hpredm
    have hmmem : m ∈ xs := by
      rw [hsplit]; exact List.mem_append.mpr (Or.inr (List.mem_cons_self _ _))
    by_cases heq : h0 = m
    · rw [hms, heq]; rfl
    · exfalso
      have hh0bs : h0 ∈ bs := by
        have : h0 ∈ as ++ m :: bs := hsplit ▸ hh0mem
        rcases List.mem_append.mp this with h' | h'
        · have := hfail h0 h'
          simp only [Bool.not_eq_true', decide_eq_false_iff_not] at this
          exact absurd hmin this
        · rcases List.mem_cons.mp h' with h'' | h''
          · exact absurd h'' heq
          · exact h''
      have hsub : [m, h0].Sublist xs := by
        rw [hsplit]
        refine List.Sublist.trans ?_ (List.sublist_append_right as (m :: bs))
        exact ((List.singleton_sublist.mpr hh0bs).cons₂ m)
      have hlemh0 : le m h0 = true := by
        simp only [hle, decide_eq_true_eq]
        exact hpredm h0 hh0mem
      have hpair := List.pair_sublist_mergeSort htrans htotal hlemh0 hsub
      rw [hms] at hpair
      have hnodup_ms : (xs.mergeSort le).Nodup := (List.mergeSort_perm xs le).nodup_iff.mpr hnd
      rw [hms, List.nodup_cons] at hnodup_ms
      cases hpair with
      | cons _ h' => exact hnodup_ms.1 (h'.subset (List.mem_cons_of_mem _ (List.mem_cons_self _ _)))
      | cons₂ h' => exact heq rfl

theorem allDirections_nodup : allDirections.Nodup := by decide

theorem possibleDirectionsFor_nodup (s : Snake) : (possibleDirectionsFor s).Nodup := by
  rw [possibleDirectionsFor]
  split
  · exact (List.filter_sublist _).nodup allDirections_nodup
  · exact allDirections_nodup

theorem safeDirections_nodup (gw gh : Int) (snakes : List Snake) (i : Nat) (s : Snake) :
    (safeDirections gw gh snakes i s).Nodup :=
  (List.filter_sublist _).nodup (possibleDirectionsFor_nodup s)

/-! ### Small computation helpers -/

theorem mergeSort_pair {α : Type} (le : α → α → Bool) (a b : α) :
    [a, b].mergeSort le = if le a b then [a, b] else [b, a] := by
  rw [List.mergeSort]
  simp [List.splitInTwo, List.merge]

theorem tickSnake_ai {gw gh : Int} {st : TickState} {i : Nat} {s : Snake} {d : Cell}
    (hs : st.snakes[i]? = some s) (hu : s.userControlled = false)
    (hnd : getNextDirection gw gh st.snakes st.food i = some d) :
    tickSnake gw gh st i =
      commitMove st i s ⟨(s.body.headD ⟨0, 0⟩).x + d.x, (s.body.headD ⟨0, 0⟩).y + d.y⟩
        (some d) := by
  simp only [tickSnake, hs, hu, hnd, Bool.false_eq_true, if_false]

theorem commitMove_snakes {st st' : TickState} {i : Nat} {s : Snake} {newHead : Cell}
    {nd : Option Cell} (h : commitMove st i s newHead nd = some st') :
    ∃ s', st'.snakes = st.snakes.set i s' := by
  simp only [commitMove] at h
  split at h
  · split at h
    · exact absurd h (by simp)
    · simp only [Option.some.injEq] at h
      exact ⟨_, by rw [← h]⟩
  · simp only [Option.some.injEq] at h
    exact ⟨_, by rw [← h]⟩

theorem tickSnake_snakes_ne {gw gh : Int} {st st' : TickState} {i j : Nat}
    (h : tickSnake gw gh st i = some st') (hne : j ≠ i) :
    st'.snakes[j]? = st.snakes[j]? := by
  cases hs : st.snakes[i]? with
  | none =>
    simp only [tickSnake, hs, Option.some.injEq] at h
    rw [← h]
  | some s =>
    simp only [tickSnake, hs] at h
    by_cases hu : s.userControlled = true
    · rw [if_pos hu] at h
      split at h
      · simp only [Option.some.injEq] at h; rw [← h]
      · obtain ⟨s', hs'⟩ := commitMove_snakes h
        rw [hs', List.getElem?_set_ne (Ne.symm hne)]
    · rw [if_neg hu] at h
      cases hnd : getNextDirection gw gh st.snakes st.food i with
      | none =>
        rw [hnd] at h
        simp only [Option.some.injEq] at h
        rw [← h]
      | some d =>
        rw [hnd] at h
        obtain ⟨s', hs'⟩ := commitMove_snakes h
        rw [hs', List.getElem?_set_ne (Ne.symm hne)]

theorem moveSnakes_append (gw gh : Int) (l₁ l₂ : List Nat) (st : TickState) :
    moveSnakes gw gh st (l₁ ++ l₂) =
      match moveSnakes gw gh st l₁ with
      | none => none
      | some st' => moveSnakes gw gh st' l₂ := by
  induction l₁ generalizing st with
  | nil => simp only [List.nil_append, moveSnakes]
  | cons i rest ih =>
    rw [List.cons_append]
    simp only [moveSnakes]
    cases htk : tickSnake gw gh st i with
    | none => rfl
    | some st₁ => exact ih st₁

theorem moveSnakes_suffix_unchanged {gw gh : Int} {i : Nat} :
    ∀ {idxs : List Nat} {st st' : TickState},
    (∀ k ∈ idxs, k < i) → moveSnakes gw gh st idxs = some st' →
    ∀ j, i ≤ j → st'.snakes[j]? = st.snakes[j]? := by
  intro idxs
  induction idxs with
  | nil =>
    intro st st' _ h j _
    simp only [moveSnakes, Option.some.injEq] at h
    rw [← h]
  | cons k rest ih =>
    intro st st' hlt h j hij
    rw [moveSnakes] at h
    cases htk : tickSnake gw gh st k with
    | none => rw [htk] at h; exact absurd h (by simp)
    | some st₁ =>
      rw [htk] at h
      have hjk : j ≠ k := by
        have := hlt k (List.mem_cons_self _ _)
        omega
      rw [ih (fun x hx => hlt x (List.mem_cons_of_mem _ hx)) h j hij,
        tickSnake_snakes_ne htk hjk]

theorem createSnakesAux_length {enable : Bool} :
    ∀ {n i : Nat} {acc : List Snake} {cd : List Cell} {cod : List String} {dd : List Cell}
      {l : List Snake},
    createSnakesAux enable n i acc cd cod dd = some l → l.length = acc.length + n := by
  intro n
  induction n with
  | zero =>
    intro i acc cd cod dd l h
    simp only [createSnakesAux, Option.some.injEq] at h
    rw [← h]
    omega
  | succ m ih =>
    intro i acc cd cod dd l h
    rw [createSnakesAux] at h
    split at h
    · exact absurd h (by simp)
    · split at h
      · exact absurd h (by simp)
      · split at h
        · exact absurd h (by simp)
        · have := ih h
          simp only [List.length_append, List.length_singleton] at this
          omega

/-! ### Unfolding lemmas for the game-over phase -/

theorem gameOverPhase_checked_some {gw gh : Int} {gs : GameState} {st : TickState} {u : Snake}
    (hu : st.snakes[st.snakes.findIdx (·.userControlled)]? = some u) :
    gameOverPhase gw gh true gs st =
      if (userSafeMoves gw gh st.snakes (st.snakes.findIdx (·.userControlled)) u).length = 0
      then
        if gs.userBlockedCounter + 1 ≥ USER_BLOCKED_THRESHOLD then
          { snakes := st.snakes, food := st.food, foodColor := gs.foodColor,
            userBlockedCounter := gs.userBlockedCounter + 1, userSnakeId := gs.userSnakeId,
            running := false }
        else
          { snakes := st.snakes, food := st.food, foodColor := gs.foodColor,
            userBlockedCounter := gs.userBlockedCounter + 1, userSnakeId := gs.userSnakeId,
            running := true }
      else
        { snakes := st.snakes, food := st.food, foodColor := gs.foodColor,
          userBlockedCounter := 0, userSnakeId := gs.userSnakeId, running := true } := by
  simp only [gameOverPhase, hu, if_true]

theorem gameOverPhase_unchecked (gw gh : Int) (gs : GameState) (st : TickState) :
    gameOverPhase gw gh false gs st =
      if st.anyMoved = false then
        { snakes := st.snakes, food := st.food, foodColor := gs.foodColor,
          userBlockedCounter := gs.userBlockedCounter, userSnakeId := gs.userSnakeId,
          running := false }
      else
        { snakes := st.snakes, food := st.food, foodColor := gs.foodColor,
          userBlockedCounter := gs.userBlockedCounter, userSnakeId := gs.userSnakeId,
          running := true } := by
  simp only [gameOverPhase, Bool.false_eq_true, if_false]

/-! ### The claims -/

/-- C1: after every tick's moves are committed — and in fact in every
reachable resting state of the simulation — no two snake body segments,
within one snake or across different snakes, occupy the same cell. -/
theorem C1_no_two_segments_share_a_cell {gw gh : Int} {gs : GameState}
    (h : Reachable gw gh gs) : (allSegments gs.snakes).Nodup :=
  (reachable_inv h).1

theorem demoStart_reachable : Reachable 5 5 demoStart :=
  Reachable.start none (some 1) false [⟨0, 0⟩] [] [⟨1, 0⟩] [⟨2, 2⟩] demoStart (by decide)

theorem C1_witness :
    Reachable 5 5 demoStart ∧ (allSegments demoStart.snakes).Nodup :=
  ⟨demoStart_reachable, C1_no_two_segments_share_a_cell demoStart_reachable⟩

/-- C10: in every reachable resting state — in particular right after the
start-time food placement and after every tick — the food cell is not
occupied by any snake body segment. -/
theorem C10_food_not_on_any_segment {gw gh : Int} {gs : GameState}
    (h : Reachable gw gh gs) : gs.food ∉ allSegments gs.snakes :=
  (reachable_inv h).2.2

theorem C10_witness :
    Reachable 5 5 demoStart ∧ demoStart.food ∉ allSegments demoStart.snakes :=
  ⟨demoStart_reachable, C10_food_not_on_any_segment demoStart_reachable⟩

/-- C3: committing a move prepends the prospective head to the body; when
the head lands on the food cell the tail is kept (the body grows by exactly
one segment) and the food is relocated to a cell not occupied by any snake
segment, otherwise the tail is removed and the body length is unchanged. -/
theorem C3_commit_grow_or_shift {st st' : TickState} {i : Nat} {s : Snake}
    {newHead : Cell} {nd : Option Cell}
    (_hs : st.snakes[i]? = some s) (hbne : s.body ≠ [])
    (h : commitMove st i s newHead nd = some st') :
    ∃ s', st'.snakes = st.snakes.set i s' ∧ s'.body.head? = some newHead ∧
      ((newHead = st.food ∧ s'.body = newHead :: s.body ∧
          s'.body.length = s.body.length + 1 ∧ st'.food ∉ allSegments st'.snakes) ∨
       (newHead ≠ st.food ∧ s'.body = newHead :: s.body.dropLast ∧
          s'.body.length = s.body.length ∧ st'.food = st.food)) := by
  simp only [commitMove] at h
  split at h
  case isTrue hfood =>
    split at h
    · exact absurd h (by simp)
    · next f rest heq =>
      simp only [Option.some.injEq] at h
      subst h
      exact ⟨_, rfl, rfl, Or.inl ⟨hfood, rfl, by simp, sampleUnoccupiedCell_not_mem heq⟩⟩
  case isFalse hfood =>
    simp only [Option.some.injEq] at h
    subst h
    obtain ⟨c0, cs, hb⟩ := List.exists_cons_of_ne_nil hbne
    have hdrop : (newHead :: s.body).dropLast = newHead :: s.body.dropLast := by
      rw [hb]; rfl
    refine ⟨_, rfl, ?_, Or.inr ⟨hfood, ?_, ?_, rfl⟩⟩
    · show ((newHead :: s.body).dropLast).head? = some newHead
      rw [hdrop]; rfl
    · show (newHead :: s.body).dropLast = newHead :: s.body.dropLast
      exact hdrop
    · show ((newHead :: s.body).dropLast).length = s.body.length
      rw [hdrop, hb]
      simp

theorem C3_witness :
    ∃ s', c3post.snakes = c3pre.snakes.set 0 s' ∧ s'.body.head? = some ⟨1, 0⟩ ∧
      (((⟨1, 0⟩ : Cell) = c3pre.food ∧ s'.body = ⟨1, 0⟩ :: c3snake.body ∧
          s'.body.length = c3snake.body.length + 1 ∧
          c3post.food ∉ allSegments c3post.snakes) ∨
       ((⟨1, 0⟩ : Cell) ≠ c3pre.food ∧ s'.body = ⟨1, 0⟩ :: c3snake.body.dropLast ∧
          s'.body.length = c3snake.body.length ∧ c3post.food = c3pre.food)) :=
  @C3_commit_grow_or_shift c3pre c3post 0 c3snake ⟨1, 0⟩ none (by decide) (by decide)
    (by decide)

/-- C4: when at least one candidate direction survives the reversal and
safety filters, the planner returns exactly the first surviving candidate —
in the fixed order (1,0), (-1,0), (0,1), (0,-1) after filtering — whose
prospective head minimizes the Manhattan distance to the food. -/
theorem C4_planner_picks_first_min {gw gh : Int} {snakes : List Snake} {food : Cell}
    {i : Nat} {s : Snake}
    (hs : snakes[i]? = some s)
    (hne : safeDirections gw gh snakes i s ≠ []) :
    getNextDirection gw gh snakes food i =
      (safeDirections gw gh snakes i s).find? (fun d =>
        decide (∀ d' ∈ safeDirections gw gh snakes i s,
          distToFood (s.body.headD ⟨0, 0⟩) d food ≤
            distToFood (s.body.headD ⟨0, 0⟩) d' food)) ∧
    (∃ d, getNextDirection gw gh snakes food i = some d) := by
  have hmain : getNextDirection gw gh snakes food i =
      (safeDirections gw gh snakes i s).find? (fun d =>
        decide (∀ d' ∈ safeDirections gw gh snakes i s,
          distToFood (s.body.headD ⟨0, 0⟩) d food ≤
            distToFood (s.body.headD ⟨0, 0⟩) d' food)) := by
    rw [getNextDirection, hs]
    simp only [Option.some_bind]
    exact head_mergeSort_eq_find_min (fun d => distToFood (s.body.headD ⟨0, 0⟩) d food)
      (safeDirections_nodup gw gh snakes i s)
  refine ⟨hmain, ?_⟩
  rw [getNextDirection, hs]
  simp only [Option.some_bind]
  have hmsne : (safeDirections gw gh snakes i s).mergeSort (fun a b =>
      decide (distToFood (s.body.headD ⟨0, 0⟩) a food ≤
        distToFood (s.body.headD ⟨0, 0⟩) b food)) ≠ [] := by
    intro hemp
    apply hne
    have := congrArg List.length hemp
    rw [List.length_mergeSort, List.length_nil] at this
    exact List.length_eq_zero.mp this
  obtain ⟨x, xs0, hx⟩ := List.exists_cons_of_ne_nil hmsne
  exact ⟨x, by rw [hx]; rfl⟩

theorem C4_witness :
    (getNextDirection 2 2 c4snakes ⟨1, 1⟩ 0 =
      (safeDirections 2 2 c4snakes 0 c4snake).find? (fun d =>
        decide (∀ d' ∈ safeDirections 2 2 c4snakes 0 c4snake,
          distToFood (c4snake.body.headD ⟨0, 0⟩) d ⟨1, 1⟩ ≤
            distToFood (c4snake.body.headD ⟨0, 0⟩) d' ⟨1, 1⟩)) ∧
    (∃ d, getNextDirection 2 2 c4snakes ⟨1, 1⟩ 0 = some d)) :=
  C4_planner_picks_first_min (by decide) (by decide)

/-- C5: with user control checked, each tick re-tests the human snake's legal
moves from its post-attempt position: a blocked tick increments the
consecutive-blocked counter and the game ends exactly when it reaches the
threshold 3; a tick with a legal move resets the counter to 0 and the game
keeps running — so two blocked ticks followed by a free one never end the
game. -/
theorem C5_blocked_counter_rule {gw gh : Int} {gs gs' : GameState} {foodDraws : List Cell}
    {st : TickState} {u : Snake}
    (hmv : moveAllSnakes gw gh ⟨gs.snakes, gs.food, false, foodDraws⟩ = some st)
    (hloop : gameLoop gw gh true foodDraws gs = some gs')
    (hu : st.snakes[st.snakes.findIdx (·.userControlled)]? = some u) :
    (userSafeMoves gw gh st.snakes (st.snakes.findIdx (·.userControlled)) u = [] →
      gs'.userBlockedCounter = gs.userBlockedCounter + 1 ∧
      (gs'.running = false ↔ gs.userBlockedCounter + 1 ≥ USER_BLOCKED_THRESHOLD)) ∧
    (userSafeMoves gw gh st.snakes (st.snakes.findIdx (·.userControlled)) u ≠ [] →
      gs'.userBlockedCounter = 0 ∧ gs'.running = true) := by
  rw [gameLoop, hmv] at hloop
  simp only [Option.map_some', Option.some.injEq] at hloop
  rw [← hloop, gameOverPhase_checked_some hu]
  constructor
  · intro hblocked
    rw [if_pos (by rw [hblocked]; rfl)]
    by_cases hth : gs.userBlockedCounter + 1 ≥ USER_BLOCKED_THRESHOLD
    · rw [if_pos hth]
      exact ⟨rfl, by simpa using hth⟩
    · rw [if_neg hth]
      refine ⟨rfl, ?_⟩
      constructor
      · intro habs; exact absurd habs (by simp)
      · intro habs; exact absurd habs hth
  · intro hfree
    rw [if_neg (fun hl => hfree (List.length_eq_zero.mp hl))]
    exact ⟨rfl, rfl⟩

theorem C5_witness :
    gameLoop 1 1 true [] c5gs = some c5gsAfter ∧
    c5gsAfter.userBlockedCounter = c5gs.userBlockedCounter + 1 ∧
    (c5gsAfter.running = false ↔ c5gs.userBlockedCounter + 1 ≥ USER_BLOCKED_THRESHOLD) := by
  have hmv : moveAllSnakes 1 1 ⟨c5gs.snakes, c5gs.food, false, []⟩ =
      some ⟨c5gs.snakes, c5gs.food, false, []⟩ := by decide
  have hloop : gameLoop 1 1 true [] c5gs = some c5gsAfter := by decide
  have hu : (⟨c5gs.snakes, c5gs.food, false, []⟩ : TickState).snakes[
      (⟨c5gs.snakes, c5gs.food, false, []⟩ : TickState).snakes.findIdx
        (·.userControlled)]? = some c5snake := by decide
  have h := C5_blocked_counter_rule hmv hloop hu
  exact ⟨hloop, h.1 (by decide)⟩

/-- C6: with no user control checked, the game ends on the first tick in
which zero snakes moved; in particular, a lone AI snake with no safe
direction ends the game on the very next tick, with its body unchanged. -/
theorem C6_no_human_immediate_end {gw gh : Int} {gs gs' : GameState} {foodDraws : List Cell}
    {st : TickState}
    (hmv : moveAllSnakes gw gh ⟨gs.snakes, gs.food, false, foodDraws⟩ = some st)
    (hloop : gameLoop gw gh false foodDraws gs = some gs') :
    (gs'.running = false ↔ st.anyMoved = false) ∧
    (∀ s : Snake, gs.snakes = [s] → s.userControlled = false →
      getNextDirection gw gh gs.snakes gs.food 0 = none →
      gs'.running = false ∧ gs'.snakes = gs.snakes) := by
  have hgs' : gs' = gameOverPhase gw gh false gs st := by
    rw [gameLoop, hmv] at hloop
    simp only [Option.map_some', Option.some.injEq] at hloop
    exact hloop.symm
  have hiff : gs'.running = false ↔ st.anyMoved = false := by
    rw [hgs', gameOverPhase_unchecked]
    by_cases ha : st.anyMoved = false
    · rw [if_pos ha]
      simpa using ha
    · rw [if_neg ha]
      constructor
      · intro habs; exact absurd habs (by simp)
      · intro habs; exact absurd habs ha
  refine ⟨hiff, ?_⟩
  intro s hsn hsu hnd
  have hs0 : (⟨gs.snakes, gs.food, false, foodDraws⟩ : TickState).snakes[0]? = some s := by
    show gs.snakes[0]? = some s
    rw [hsn]; rfl
  have h0 : tickSnake gw gh ⟨gs.snakes, gs.food, false, foodDraws⟩ 0 =
      some ⟨gs.snakes, gs.food, false, foodDraws⟩ := by
    simp only [tickSnake, hs0, hsu, Bool.false_eq_true, if_false, hnd]
  have hone : List.range (⟨gs.snakes, gs.food, false, foodDraws⟩ : TickState).snakes.length
      = [0] := by
    show List.range gs.snakes.length = [0]
    rw [hsn]
    rfl
  rw [moveAllSnakes, hone] at hmv
  simp only [moveSnakes, h0, Option.some.injEq] at hmv
  constructor
  · rw [hiff, ← hmv]
  · rw [hgs', gameOverPhase_snakes, ← hmv]

theorem C6_witness :
    gameLoop 1 1 false [] c6gs = some c6gsAfter ∧
    c6gsAfter.running = false ∧ c6gsAfter.snakes = c6gs.snakes := by
  have hsafe : safeDirections 1 1 c6gs.snakes 0 c6snake = [] := by decide
  have hnd : getNextDirection 1 1 c6gs.snakes c6gs.food 0 = none := by
    have hs0 : c6gs.snakes[0]? = some c6snake := rfl
    rw [getNextDirection, hs0]
    simp only [Option.some_bind]
    rw [hsafe]
    simp
  have h0 : tickSnake 1 1 ⟨c6gs.snakes, c6gs.food, false, []⟩ 0 =
      some ⟨c6gs.snakes, c6gs.food, false, []⟩ := by
    have hs0 : (⟨c6gs.snakes, c6gs.food, false, []⟩ : TickState).snakes[0]? = some c6snake :=
      rfl
    simp only [tickSnake, hs0, Bool.false_eq_true, if_false, hnd]
    rfl
  have hmv : moveAllSnakes 1 1 ⟨c6gs.snakes, c6gs.food, false, []⟩ =
      some ⟨c6gs.snakes, c6gs.food, false, []⟩ := by
    have hone : List.range
        (⟨c6gs.snakes, c6gs.food, false, []⟩ : TickState).snakes.length = [0] := rfl
    rw [moveAllSnakes, hone]
    simp only [moveSnakes, h0]
  have hloop : gameLoop 1 1 false [] c6gs = some c6gsAfter := by
    rw [gameLoop, hmv]
    decide
  have h := C6_no_human_immediate_end hmv hloop
  exact ⟨hloop, h.2 c6snake rfl rfl hnd⟩

/-- C9: with user control checked, as long as the human snake has at least
one legal move after this tick's attempts, the game keeps running — whether
or not any snake (the human included) actually moved this tick. -/
theorem C9_others_blocked_never_ends {gw gh : Int} {gs gs' : GameState}
    {foodDraws : List Cell} {st : TickState} {u : Snake}
    (hmv : moveAllSnakes gw gh ⟨gs.snakes, gs.food, false, foodDraws⟩ = some st)
    (hloop : gameLoop gw gh true foodDraws gs = some gs')
    (hu : st.snakes[st.snakes.findIdx (·.userControlled)]? = some u)
    (hfree : userSafeMoves gw gh st.snakes (st.snakes.findIdx (·.userControlled)) u ≠ []) :
    gs'.running = true := by
  rw [gameLoop, hmv] at hloop
  simp only [Option.map_some', Option.some.injEq] at hloop
  rw [← hloop, gameOverPhase_checked_some hu,
    if_neg (fun hl => hfree (List.length_eq_zero.mp hl))]

theorem C9_witness :
    gameLoop 2 1 true [] c9gs = some c9gsAfter ∧
    (moveAllSnakes 2 1 ⟨c9gs.snakes, c9gs.food, false, []⟩).map (·.anyMoved) = some false ∧
    c9gsAfter.running = true := by
  have hmv : moveAllSnakes 2 1 ⟨c9gs.snakes, c9gs.food, false, []⟩ =
      some ⟨c9gs.snakes, c9gs.food, false, []⟩ := by decide
  have hloop : gameLoop 2 1 true [] c9gs = some c9gsAfter := by decide
  have hu : (⟨c9gs.snakes, c9gs.food, false, []⟩ : TickState).snakes[
      (⟨c9gs.snakes, c9gs.food, false, []⟩ : TickState).snakes.findIdx
        (·.userControlled)]? = some c9snake := by decide
  refine ⟨hloop, by rw [hmv]; rfl, ?_⟩
  exact C9_others_blocked_never_ends hmv hloop hu (by decide)

/-- C2 counterexample: on the 3×2 board `c2start`, the user snake's intended
head (1, 0) is in bounds and unoccupied in the resting (pre-move) layout —
running its step alone from the resting state commits the move — yet the
actual tick, in which the AI snake is processed first and takes (1, 0),
leaves the user snake unmoved: the validating occupancy check saw the AI
snake's already-updated position, not the pre-move layout. -/
theorem C2_counterexample :
    isCellOccupied c2start.snakes 1 0 (some 1) = false ∧
    tickSnake 3 2 c2start 1 =
      some { snakes := [c2snakeA,
               { id := 1, color := "blue", body := [⟨1, 0⟩], direction := ⟨0, -1⟩,
                 userControlled := true }],
             food := ⟨2, 0⟩, anyMoved := true, foodDraws := [] } ∧
    (moveAllSnakes 3 2 c2start).map (fun st => st.snakes.map Snake.body) =
      some [[⟨1, 0⟩], [⟨1, 1⟩]] := by
  refine ⟨by decide, by decide, ?_⟩
  have hsafe : safeDirections 3 2 c2start.snakes 0 c2snakeA = [⟨1, 0⟩, ⟨0, 1⟩] := by decide
  have hnext : getNextDirection 3 2 c2start.snakes c2start.food 0 = some ⟨1, 0⟩ := by
    have hs0 : c2start.snakes[0]? = some c2snakeA := rfl
    rw [getNextDirection, hs0]
    simp only [Option.some_bind]
    rw [hsafe, mergeSort_pair]
    decide
  have h1 : tickSnake 3 2 c2start 0 = some c2mid := by
    rw [tickSnake_ai rfl rfl hnext]
    decide
  have h2 : tickSnake 3 2 c2mid 1 = some c2mid := by decide
  have hr : List.range c2start.snakes.length = [0, 1] := rfl
  simp only [moveAllSnakes, hr, moveSnakes, h1, h2]
  decide

/-- C2 amended: within one tick the snakes are processed in registry order
against the in-place mutated list: when snake `i` is reached (after the
indices `l₁` of the earlier snakes), its step — including its occupancy
check — runs in the intermediate state `stMid`, in which every snake of
index `≥ i` still holds its resting body from the end of the previous
tick, while earlier snakes' moves are already committed. -/
theorem C2_interleaved_check_state {gw gh : Int} {st stMid : TickState} {i : Nat}
    {l₁ l₂ : List Nat}
    (hlt : ∀ k ∈ l₁, k < i)
    (hpre : moveSnakes gw gh st l₁ = some stMid) :
    moveSnakes gw gh st (l₁ ++ i :: l₂) =
      (match tickSnake gw gh stMid i with
       | none => none
       | some st' => moveSnakes gw gh st' l₂) ∧
    ∀ j, i ≤ j → stMid.snakes[j]? = st.snakes[j]? := by
  refine ⟨?_, moveSnakes_suffix_unchanged hlt hpre⟩
  rw [moveSnakes_append, hpre]
  simp only [moveSnakes]

theorem C2_witness :
    (moveSnakes 5 5 c2wpre ([0] ++ 1 :: []) =
      (match tickSnake 5 5 c2wmid 1 with
       | none => none
       | some st' => moveSnakes 5 5 st' []) ∧
    ∀ j, 1 ≤ j → c2wmid.snakes[j]? = c2wpre.snakes[j]?) := by
  have hlt : ∀ k ∈ [0], k < 1 := by decide
  have hpre : moveSnakes 5 5 c2wpre [0] = some c2wmid := by decide
  exact C2_interleaved_check_state hlt hpre

/-- C7: an autonomous snake longer than one segment never picks the exact
reverse of its direction (the reversal is filtered out of the candidates);
a keydown carrying the exact reverse for a longer-than-one user snake is
ignored, leaving the list unchanged; a single-segment user snake has its
direction set freely. -/
theorem C7_no_reversal {gw gh : Int} {snakes ks : List Snake} {food : Cell} {i : Nat}
    {s u : Snake} {d newDir : Cell}
    (hs : snakes[i]? = some s)
    (hu : ks[ks.findIdx (·.userControlled)]? = some u) :
    (s.body.length > 1 → getNextDirection gw gh snakes food i = some d →
      ¬(d.x = -s.direction.x ∧ d.y = -s.direction.y)) ∧
    (u.body.length > 1 → u.direction.x = -newDir.x → u.direction.y = -newDir.y →
      applyKeydown ks newDir = ks) ∧
    (¬u.body.length > 1 →
      applyKeydown ks newDir =
        ks.set (ks.findIdx (·.userControlled)) { u with direction := newDir }) := by
  refine ⟨?_, ?_, ?_⟩
  · intro hlen hnd hrev
    have hmem := getNextDirection_mem_safe hs hnd
    have hposs := (safeDirections_spec hmem).1
    rw [possibleDirectionsFor, if_pos hlen, List.mem_filter] at hposs
    have h2 := hposs.2
    simp only [Bool.not_eq_true', Bool.and_eq_false_iff, beq_eq_false_iff_ne, ne_eq] at h2
    rcases h2 with h2 | h2
    · exact h2 hrev.1
    · exact h2 hrev.2
  · intro hlen hx hy
    simp only [applyKeydown, hu]
    rw [if_pos ⟨hlen, hx, hy⟩]
  · intro hlen
    simp only [applyKeydown, hu]
    rw [if_neg (fun hg => hlen hg.1)]

theorem C7_witness :
    ((c7snake.body.length > 1 → getNextDirection 5 5 c7snakes ⟨0, 0⟩ 0 = some ⟨0, 1⟩ →
      ¬((⟨0, 1⟩ : Cell).x = -c7snake.direction.x ∧ (⟨0, 1⟩ : Cell).y = -c7snake.direction.y)) ∧
    (c7snake.body.length > 1 → c7snake.direction.x = -(⟨-1, 0⟩ : Cell).x →
      c7snake.direction.y = -(⟨-1, 0⟩ : Cell).y →
      applyKeydown c7snakes ⟨-1, 0⟩ = c7snakes) ∧
    (¬c7snake.body.length > 1 →
      applyKeydown c7snakes ⟨-1, 0⟩ =
        c7snakes.set (c7snakes.findIdx (·.userControlled))
          { c7snake with direction := ⟨-1, 0⟩ })) ∧
    applyKeydown c7snakes ⟨-1, 0⟩ = c7snakes := by
  have h := @C7_no_reversal 5 5 c7snakes c7snakes ⟨0, 0⟩ 0 c7snake c7snake ⟨0, 1⟩ ⟨-1, 0⟩
    (show c7snakes[0]? = some c7snake by decide)
    (show c7snakes[c7snakes.findIdx (·.userControlled)]? = some c7snake by decide)
  exact ⟨h, h.2.1 (by decide) (by decide) (by decide)⟩

/-- C8 counterexample: a requested count parsing to -1 is non-positive, yet
it is not clamped to 1: `parseInt(...) || 1` keeps -1 (only 0 and NaN are
falsy), and the creation loop then runs zero times, producing 0 snakes. -/
theorem C8_counterexample :
    requestedSnakeCount (some (-1)) = -1 ∧
    (createSnakes (requestedSnakeCount (some (-1))) false [] [] []).map List.length =
      some 0 ∧
    (0 : Nat) ≠ 1 := by decide

/-- C8 amended: a requested count that parses to 0, or fails to parse,
defaults to 1; any other parsed value — negative values included — is used
as is, and the creation loop then produces `toNat` of it many snakes (so a
negative count yields zero snakes, not one). -/
theorem C8_zero_defaults_one (parsed : Option Int) (enable : Bool) (cellDraws : List Cell)
    (colorDraws : List String) (dirDraws : List Cell) (l : List Snake)
    (hcreate : createSnakes (requestedSnakeCount parsed) enable cellDraws colorDraws dirDraws
      = some l) :
    ((parsed = none ∨ parsed = some 0) → requestedSnakeCount parsed = 1) ∧
    (∀ n : Int, parsed = some n → n ≠ 0 → requestedSnakeCount parsed = n) ∧
    l.length = (requestedSnakeCount parsed).toNat := by
  refine ⟨?_, ?_, ?_⟩
  · rintro (rfl | rfl) <;> rfl
  · rintro n rfl hn
    rw [requestedSnakeCount, if_neg hn]
  · have := createSnakesAux_length hcreate
    simpa using this

theorem C8_witness :
    (((some (0 : Int) = none ∨ some (0 : Int) = some 0) →
        requestedSnakeCount (some 0) = 1) ∧
      (∀ n : Int, some (0 : Int) = some n → n ≠ 0 → requestedSnakeCount (some 0) = n) ∧
      ([{ id := 0, color := "red", body := [⟨0, 0⟩], direction := ⟨1, 0⟩,
          userControlled := false }] : List Snake).length =
        (requestedSnakeCount (some 0)).toNat) ∧
    requestedSnakeCount (some 0) = 1 := by
  have h := C8_zero_defaults_one (some 0) false [⟨0, 0⟩] [] [⟨1, 0⟩]
    [{ id := 0, color := "red", body := [⟨0, 0⟩], direction := ⟨1, 0⟩,
       userControlled := false }] (by decide)
  exact ⟨h, h.1 (Or.inr rfl)⟩

end SnakeGame
